import Mathlib

/-!
Shallow embedding of the decode-and-deliver core of the ting-reader
repository (cache-manager.js, the ranged-streaming branch of the backend
stream route, and xm-decryptor.js), together with theorems settling the
frozen claims about the natural-language specification.

Byte sequences are modelled as `List Nat` (each entry one byte).
JavaScript strings are modelled as `List Nat` of UTF-16 code units.
JavaScript `NaN`-valued numbers arising from `parseInt` are modelled as
`Option Int` with `none` standing for `NaN`.
-/

namespace TingReader

/-! ## Cache manager (`cache-manager.js`) -/

namespace Cache

/-- One cache file as observed by `clearOldCache` via `fs.stat`:
modification time (milliseconds) and size in bytes. -/
structure CacheFile where
  mtime : Int
  size : Nat
deriving DecidableEq, Repr

/-- Model of `const MAX_FILES = 50;` -/
def MAX_FILES : Nat := 50

/-- Model of `const MAX_SIZE_BYTES = 2 * 1024 * 1024 * 1024;` (2 GiB) -/
def MAX_SIZE_BYTES : Nat := 2 * 1024 * 1024 * 1024

/-- Insert one file into a list that is already sorted by ascending
modification time (helper realising the stable ascending sort of
`fileDetails.sort((a, b) => a.mtime - b.mtime)`). -/
def insertByMtime (f : CacheFile) : List CacheFile → List CacheFile
  | [] => [f]
  | g :: rest => if f.mtime ≤ g.mtime then f :: g :: rest else g :: insertByMtime f rest

/-- Model of `fileDetails.sort((a, b) => a.mtime - b.mtime)` — oldest first. -/
def sortByMtime (l : List CacheFile) : List CacheFile :=
  l.foldr insertByMtime []

/-- Model of `fileDetails.reduce((sum, f) => sum + f.size, 0)` -/
def totalSize (l : List CacheFile) : Nat :=
  (l.map CacheFile.size).sum

/-- The size-limit loop of `clearOldCache`: repeatedly delete the oldest
remaining file while the total size of the remaining files exceeds
`MAX_SIZE_BYTES`.  (The JS loop keeps `currentSize` equal to the total
size of the files not yet pushed onto `toDelete` and stops as soon as
`currentSize <= MAX_SIZE_BYTES`, or when every file has been deleted.) -/
def sizeTrim : List CacheFile → List CacheFile
  | [] => []
  | f :: rest => if totalSize (f :: rest) ≤ MAX_SIZE_BYTES then f :: rest else sizeTrim rest

/-- Model of `clearOldCache` (cache-manager.js lines 62-108), modelled as the list of
files that remain after a completed sweep in which every `unlink` succeeds:
sort oldest-modified-first, delete the count excess beyond `MAX_FILES`
oldest-first, then delete oldest-first while the total size still exceeds
`MAX_SIZE_BYTES`. -/
def clearOldCache (files : List CacheFile) : List CacheFile :=
  let sorted := sortByMtime files
  let kept :=
    if sorted.length > MAX_FILES then sorted.drop (sorted.length - MAX_FILES) else sorted
  sizeTrim kept

end Cache

/-! ## Backend ranged streaming (`ting-reader-backend/index.js`, the
WebDAV regular-file branch of `GET /api/stream/:chapterId`) -/

namespace Backend

/-- Body of an HTTP response produced by the ranged-streaming branch. -/
inductive HttpBody where
  /-- No body at all. -/
  | empty
  /-- A literal text body sent with `res.send(...)`. -/
  | text (s : String)
  /-- The piped byte stream for the byte range `[start, fin]`. -/
  | chunk (start fin : Int)
deriving DecidableEq, Repr

/-- The observable parts of the response relevant to the range claims. -/
structure HttpResponse where
  status : Nat
  contentRange : Option String := none
  contentLength : Option Int := none
  body : HttpBody
deriving DecidableEq, Repr

/-- The `if (range)` branch of the non-protected remote streaming path
(index.js: `start >= fileSize` check, else 206 with stream):

```
const start = parseInt(parts[0], 10);
const end = parts[1] ? parseInt(parts[1], 10) : fileSize - 1;
if (start >= fileSize) {
  res.setHeader(Content-Range, bytes */fileSize);
  return res.status(416).send(Requested range not satisfiable);
}
const chunksize = (end - start) + 1;
res.writeHead(206, Content-Range: bytes start-end/fileSize, Content-Length: chunksize);
stream.pipe(res);
```

`start` is the parsed start of the Range header; `endOpt` is `none` when the
header has no explicit end (in which case the code uses `fileSize - 1`). -/
def streamRangedResponse (fileSize : Nat) (start : Int) (endOpt : Option Int) : HttpResponse :=
  if (fileSize : Int) ≤ start then
    { status := 416
      contentRange := some ("bytes */" ++ toString fileSize)
      body := .text "Requested range not satisfiable" }
  else
    let fin := endOpt.getD ((fileSize : Int) - 1)
    { status := 206
      contentRange := some ("bytes " ++ toString start ++ "-" ++ toString fin ++ "/" ++ toString fileSize)
      contentLength := some (fin - start + 1)
      body := .chunk start fin }

end Backend

/-! ## XM decryptor (`xm-decryptor.js`)

Buffers are `List Nat` of bytes; JS strings are `List Nat` of UTF-16 code
units.  The external collaborators that are not part of this repository
are parameters of the model: the result of `nodeID3.read` (an `Id3Tags`
value or `none`), raw AES-256-CBC block decryption under the fixed key
`XM_KEY` and a given IV (`aesDec : List Nat → List Nat → List Nat`, first
argument the IV buffer), and `processWasmDecryption` (whose core is the
opaque `xm.wasm` binary, hence `wasm : List Nat → XMInfo → Except XMError
(List Nat)`). -/

namespace XM

deriving instance DecidableEq for Except

/-- Stage-specific errors thrown by `decryptXM` and its helpers. -/
inductive XMError where
  /-- Message `Empty content provided to decryptXM` -/
  | emptyContent
  /-- Message `RangeError [ERR_OUT_OF_RANGE]` escaping from `buffer.readUInt32BE`
  inside `extractTagsManually` (a generic exception, not an XM error
  message). -/
  | rangeError
  /-- Message `No IV found in tags (TSRC, ISRC, TENC, or manual)` -/
  | noIV
  /-- Message `Encrypted segment is empty. ...` -/
  | emptySegment
  /-- Message `IV is missing` (thrown by `getIvBuffer`) -/
  | ivMissing
  /-- An error escaping the block-cipher stage after both decrypt
  attempts failed. -/
  | cipherError
  /-- Message `Invalid AES decrypted data (not UTF-8)` -/
  | invalidUtf8
  /-- Any failure reported by the WASM transform stage. -/
  | wasmFailure
deriving DecidableEq, Repr

/-- UTF-16 code units of an ASCII/BMP Lean string literal. -/
def strUnits (s : String) : List Nat :=
  s.data.map Char.toNat

/-- The JS `WhiteSpace` and `LineTerminator` code units removed by
`String.prototype.trim`. -/
def isJsWs (c : Nat) : Bool :=
  c = 9 ∨ c = 10 ∨ c = 11 ∨ c = 12 ∨ c = 13 ∨ c = 32 ∨ c = 160 ∨ c = 5760 ∨
    (8192 ≤ c ∧ c ≤ 8202) ∨ c = 8232 ∨ c = 8233 ∨ c = 8239 ∨ c = 8287 ∨
    c = 12288 ∨ c = 65279

/-- Model of `String.prototype.trim`. -/
def jsTrim (l : List Nat) : List Nat :=
  ((l.dropWhile isJsWs).reverse.dropWhile isJsWs).reverse

/-- JS line terminators (the code units that `.` does not match in a
regular expression). -/
def isLineTerm (c : Nat) : Bool :=
  c = 10 ∨ c = 13 ∨ c = 8232 ∨ c = 8233

/-- Model of `str.replace(/\0.*$/, ...)` with the empty replacement: cut the string
at the leftmost NUL that is followed only by non-line-terminator units
(without the `m` flag, `$` only matches at the very end of the input, and
`.` cannot cross a line terminator, so a NUL trailed by a later newline
does not match). -/
def stripFromNull : List Nat → List Nat
  | [] => []
  | c :: rest =>
    if c = 0 ∧ rest.all (fun x => ¬ isLineTerm x) then []
    else c :: stripFromNull rest

/-- ASCII decimal digit. -/
def isDigitUnit (c : Nat) : Bool := 48 ≤ c ∧ c ≤ 57

/-- ASCII hexadecimal digit. -/
def isHexUnit (c : Nat) : Bool :=
  (48 ≤ c ∧ c ≤ 57) ∨ (65 ≤ c ∧ c ≤ 70) ∨ (97 ≤ c ∧ c ≤ 102)

/-- Value of one hexadecimal digit. -/
def hexVal (c : Nat) : Nat :=
  if 48 ≤ c ∧ c ≤ 57 then c - 48
  else if 65 ≤ c ∧ c ≤ 70 then c - 55
  else if 97 ≤ c ∧ c ≤ 102 then c - 87
  else 0

/-- Model of `Buffer.from(str, hex)`: consume hex-digit pairs into bytes. -/
def hexPairsToBytes : List Nat → List Nat
  | a :: b :: rest => (hexVal a * 16 + hexVal b) :: hexPairsToBytes rest
  | _ => []

/-- Digits folded to a natural number in the given base. -/
def digitsToNat (base : Nat) (f : Nat → Nat) (l : List Nat) : Nat :=
  l.foldl (fun acc c => acc * base + f c) 0

/-- JS `parseInt(str)` with no radix argument: skip leading whitespace,
optional sign, then either a `0x`/`0X`-prefixed hexadecimal literal or a
decimal digit run; `none` models the `NaN` result. -/
def jsParseInt (l : List Nat) : Option Int :=
  let t := l.dropWhile isJsWs
  let (sign, t) : Int × List Nat :=
    match t with
    | 45 :: rest => (-1, rest)
    | 43 :: rest => (1, rest)
    | _ => (1, t)
  match t with
  | 48 :: x :: rest =>
    if x = 120 ∨ x = 88 then
      let ds := rest.takeWhile isHexUnit
      if ds = [] then none else some (sign * (digitsToNat 16 hexVal ds : Nat))
    else
      -- starts with the digit 0 followed by something that is not x/X
      some (sign * (digitsToNat 10 (fun c => c - 48) ((48 :: x :: rest).takeWhile isDigitUnit) : Nat))
  | _ =>
    let ds := t.takeWhile isDigitUnit
    if ds = [] then none else some (sign * (digitsToNat 10 (fun c => c - 48) ds : Nat))

/-- Model of `parseInt(x) || 0`: `NaN` collapses to 0. -/
def jsParseIntOr0 (l : List Nat) : Int :=
  (jsParseInt l).getD 0

/-- Model of `Buffer.prototype.toString(latin1)`: each byte is one code unit. -/
def decodeLatin1 (l : List Nat) : List Nat := l

/-- Model of `Buffer.prototype.toString(utf16le)`: little-endian byte pairs become
code units; a trailing odd byte is dropped. -/
def decodeUtf16le : List Nat → List Nat
  | a :: b :: rest => (a + 256 * b) :: decodeUtf16le rest
  | _ => []

/-- One step of WHATWG UTF-8 decoding: the code units emitted for the
first (possibly multi-byte) sequence and the remaining bytes.  Invalid
input emits U+FFFD (65533) and resumes at the first unconsumed byte. -/
def utf8Step : List Nat → List Nat × List Nat
  | [] => ([], [])
  | b :: rest =>
    if b < 128 then ([b], rest)
    else if b < 194 then ([65533], rest)
    else if b < 224 then
      match rest with
      | [] => ([65533], [])
      | c :: r2 =>
        if 128 ≤ c ∧ c ≤ 191 then ([(b - 192) * 64 + (c - 128)], r2)
        else ([65533], c :: r2)
    else if b < 240 then
      match rest with
      | [] => ([65533], [])
      | c1 :: r2 =>
        if (if b = 224 then 160 ≤ c1 else 128 ≤ c1) ∧ (if b = 237 then c1 ≤ 159 else c1 ≤ 191) then
          match r2 with
          | [] => ([65533], [])
          | c2 :: r3 =>
            if 128 ≤ c2 ∧ c2 ≤ 191 then
              ([(b - 224) * 4096 + (c1 - 128) * 64 + (c2 - 128)], r3)
            else ([65533], c2 :: r3)
        else ([65533], c1 :: r2)
    else if b < 245 then
      match rest with
      | [] => ([65533], [])
      | c1 :: r2 =>
        if (if b = 240 then 144 ≤ c1 else 128 ≤ c1) ∧ (if b = 244 then c1 ≤ 143 else c1 ≤ 191) then
          match r2 with
          | [] => ([65533], [])
          | c2 :: r3 =>
            if 128 ≤ c2 ∧ c2 ≤ 191 then
              match r3 with
              | [] => ([65533], [])
              | c3 :: r4 =>
                if 128 ≤ c3 ∧ c3 ≤ 191 then
                  let cp := (b - 240) * 262144 + (c1 - 128) * 4096 + (c2 - 128) * 64 + (c3 - 128)
                  ([55296 + (cp - 65536) / 1024, 56320 + (cp - 65536) % 1024], r4)
                else ([65533], c3 :: r4)
            else ([65533], c2 :: r3)
        else ([65533], c1 :: r2)
    else ([65533], rest)

/-- Fuel-driven UTF-8 decoding loop; `utf8Step` consumes at least one byte
per step, so fuel equal to the byte count never runs out. -/
def decodeUtf8Go : Nat → List Nat → List Nat
  | 0, _ => []
  | _, [] => []
  | fuel + 1, b :: rest =>
    let p := utf8Step (b :: rest)
    p.1 ++ decodeUtf8Go fuel p.2

/-- Model of `Buffer.prototype.toString(utf8)` / `Buffer.prototype.toString()`:
WHATWG UTF-8 decoding with U+FFFD replacement. -/
def decodeUtf8 (l : List Nat) : List Nat :=
  decodeUtf8Go l.length l

/-- Model of `Buffer.from(str, utf8)`: UTF-8 encoding of a JS (UTF-16) string;
well-formed surrogate pairs become 4-byte sequences, lone surrogates the
replacement sequence EF BF BD. -/
def utf8Encode : List Nat → List Nat
  | [] => []
  | u :: rest =>
    if u < 128 then u :: utf8Encode rest
    else if u < 2048 then (192 + u / 64) :: (128 + u % 64) :: utf8Encode rest
    else if 55296 ≤ u ∧ u < 56320 then
      match rest with
      | [] => [239, 191, 189]
      | u2 :: rest2 =>
        if 56320 ≤ u2 ∧ u2 < 57344 then
          let cp := 65536 + (u - 55296) * 1024 + (u2 - 56320)
          (240 + cp / 262144) :: (128 + cp / 4096 % 64) :: (128 + cp / 64 % 64) ::
            (128 + cp % 64) :: utf8Encode rest2
        else 239 :: 191 :: 189 :: utf8Encode (u2 :: rest2)
    else if 56320 ≤ u ∧ u < 57344 then 239 :: 191 :: 189 :: utf8Encode rest
    else (224 + u / 4096) :: (128 + u / 64 % 64) :: (128 + u % 64) :: utf8Encode rest

/-- Model of `buffer[i]` used in a numeric context where `undefined` coerces to 0
(bitwise operators). -/
def byteAt (l : List Nat) (i : Nat) : Nat :=
  (l.get? i).getD 0

/-- Model of `buffer.slice(s, e)` for non-negative in-bounds-or-clamped indices. -/
def jsSliceN (l : List Nat) (s e : Nat) : List Nat :=
  (l.take e).drop s

/-- Resolve one `Buffer.prototype.slice` index: `NaN` (`none`) coerces to
0, a negative index counts from the end (clamped at 0), and any index is
clamped to the length. -/
def jsIndex (len : Nat) : Option Int → Nat
  | none => 0
  | some i => if i < 0 then ((len : Int) + i).toNat else min i.toNat len

/-- Model of `buffer.slice(s, e)` with JS index semantics (`Option Int` indices,
`none` = `NaN`). -/
def jsSlice (l : List Nat) (s e : Option Int) : List Nat :=
  (l.take (jsIndex l.length e)).drop (jsIndex l.length s)

/-- One entry of `tags.userDefinedText` as produced by `nodeID3.read`. -/
structure UdtItem where
  description : List Nat
  value : List Nat
deriving DecidableEq, Repr

/-- The fields of the `nodeID3.read` result that `decryptXM` consults.
Every field is a JS string or absent (`none` = `undefined`).  The model
treats the whole value as an input parameter, since `node-id3` is an
external library. -/
structure Id3Tags where
  trackNumber : Option (List Nat) := none
  TRCK : Option (List Nat) := none
  size : Option (List Nat) := none
  TSIZ : Option (List Nat) := none
  userDefinedText : Option (List UdtItem) := none
  isrc : Option (List Nat) := none
  TSRC : Option (List Nat) := none
  encodedBy : Option (List Nat) := none
  TENC : Option (List Nat) := none
  ISRC : Option (List Nat) := none
  encodingTechnology : Option (List Nat) := none
  TSSE : Option (List Nat) := none
deriving DecidableEq, Repr

/-- JS truthiness of a string-or-undefined value: `undefined`, `null` and
the empty string are falsy. -/
def jsStrTruthy : Option (List Nat) → Bool
  | none => false
  | some [] => false
  | some (_ :: _) => true

/-- JS `a || b` on string-or-undefined values. -/
def jsOr (a b : Option (List Nat)) : Option (List Nat) :=
  if jsStrTruthy a then a else b

/-- Model of `tags.userDefinedText?.find(t => t.description === key)?.value` -/
def udtValue (udt : Option (List UdtItem)) (key : List Nat) : Option (List Nat) :=
  match udt with
  | none => none
  | some l =>
    match l.find? (fun it => it.description = key) with
    | none => none
    | some it => some it.value

/-- The resolved decryption descriptor built by `decryptXM` (the `xmInfo`
object).  `size` is `Option Int` with `none` modelling `NaN`. -/
structure XMInfo where
  tracknumber : Int
  size : Option Int
  headerSize : Nat
  iv : Option (List Nat)
  encodingTechnology : List Nat
deriving DecidableEq, Repr

/-- Model of `getID3Size` (xm-decryptor.js lines 95-100):

```
if (buffer.slice(0, 3).toString() !== ID3) return 0;
const size = ((buffer[6] & 0x7f) << 21) | ((buffer[7] & 0x7f) << 14)
           | ((buffer[8] & 0x7f) << 7) | (buffer[9] & 0x7f);
return size + 10;
```

Out-of-range byte reads give `undefined`, which the bitwise operators
coerce to 0. -/
def getID3Size (buffer : List Nat) : Nat :=
  if decodeUtf8 (jsSliceN buffer 0 3) = strUnits "ID3" then
    (((((byteAt buffer 6 &&& 127) <<< 21) ||| ((byteAt buffer 7 &&& 127) <<< 14)) |||
      ((byteAt buffer 8 &&& 127) <<< 7)) ||| (byteAt buffer 9 &&& 127)) + 10
  else 0

/-- The `tags` accumulator of `extractTagsManually`
(`{ iv: null, size: 0, tsse: ..., track: 0 }`; a `TLEN` frame later adds a
`length` property, modelled as `tlen`). -/
structure ManualTags where
  iv : Option (List Nat) := none
  size : Int := 0
  tsse : List Nat := []
  track : Int := 0
  tlen : Option (List Nat) := none
deriving DecidableEq, Repr

/-- Field updates performed for one ID3v2.2 frame (`TSI`, `TRK`, `TSS`,
`IRC`, `TEN`) on the already null-stripped latin1 `content`. -/
def applyFrameV2 (fid content : List Nat) (t : ManualTags) : ManualTags :=
  if fid = strUnits "TSI" then { t with size := jsParseIntOr0 content }
  else if fid = strUnits "TRK" then { t with track := jsParseIntOr0 content }
  else if fid = strUnits "TSS" then { t with tsse := jsTrim content }
  else if fid = strUnits "IRC" ∨ fid = strUnits "TEN" then
    if ¬ jsStrTruthy t.iv then { t with iv := some (jsTrim content) } else t
  else t

/-- Field updates performed for one ID3v2.3/v2.4 frame (`TSIZ`, `TRCK`,
`TSSE`, `TSRC`/`TENC`/`ISRC`, `TLEN`) on the decoded, null-stripped,
trimmed `content`.  An IV-bearing frame is stored only when no IV is
present yet and the text has at least 16 code units. -/
def applyFrameV34 (fid content : List Nat) (t : ManualTags) : ManualTags :=
  if fid = strUnits "TSIZ" then { t with size := jsParseIntOr0 content }
  else if fid = strUnits "TRCK" then { t with track := jsParseIntOr0 content }
  else if fid = strUnits "TSSE" then { t with tsse := content }
  else if fid = strUnits "TSRC" ∨ fid = strUnits "TENC" ∨ fid = strUnits "ISRC" then
    if ¬ jsStrTruthy t.iv ∧ 16 ≤ content.length then { t with iv := some content } else t
  else if fid = strUnits "TLEN" then { t with tlen := some content }
  else t

/-- The frame-walk loop of `extractTagsManually` (lines 109-159).  The
first argument is fuel for structural recursion; the walk advances `pos`
by at least 7 per iteration and stops once `pos ≥ headerSize - 10`, so an
initial fuel of `headerSize` can never be exhausted.  The `Except` error
is the `RangeError` thrown by `buffer.readUInt32BE(pos + 4)` when fewer
than four bytes remain (the non-synchsafe ID3v2.3 size read). -/
def manualLoop (buffer : List Nat) (headerSize : Nat) :
    Nat → Nat → ManualTags → Except Unit ManualTags
  | 0, _, t => .ok t
  | fuel + 1, pos, t =>
    if pos < headerSize - 10 then
      if buffer.get? 3 = some 2 then
        -- ID3v2.2: 3-byte frame id, 3-byte big-endian size
        let fid := decodeUtf8 (jsSliceN buffer pos (pos + 3))
        let frameSize :=
          ((byteAt buffer (pos + 3) <<< 16) ||| (byteAt buffer (pos + 4) <<< 8)) |||
            byteAt buffer (pos + 5)
        if fid.head? = some 0 then .ok t
        else if frameSize = 0 ∨ pos + 6 + frameSize > headerSize then .ok t
        else
          let content := stripFromNull (decodeLatin1 (jsSliceN buffer (pos + 6) (pos + 6 + frameSize)))
          manualLoop buffer headerSize fuel (pos + 6 + frameSize) (applyFrameV2 fid content t)
      else
        -- ID3v2.3 / v2.4 (and any other version byte): 4-byte frame id
        let fid := decodeUtf8 (jsSliceN buffer pos (pos + 4))
        if fid.head? = some 0 then .ok t
        else
          let frameSizeE : Except Unit Nat :=
            if buffer.get? 3 = some 4 then
              .ok (((((byteAt buffer (pos + 4) &&& 127) <<< 21) |||
                ((byteAt buffer (pos + 5) &&& 127) <<< 14)) |||
                ((byteAt buffer (pos + 6) &&& 127) <<< 7)) ||| (byteAt buffer (pos + 7) &&& 127))
            else if pos + 4 + 4 ≤ buffer.length then
              .ok ((((byteAt buffer (pos + 4) <<< 24) ||| (byteAt buffer (pos + 5) <<< 16)) |||
                (byteAt buffer (pos + 6) <<< 8)) ||| byteAt buffer (pos + 7))
            else .error ()  -- buffer.readUInt32BE throws ERR_OUT_OF_RANGE
          match frameSizeE with
          | .error e => .error e
          | .ok frameSize =>
            if frameSize = 0 ∨ pos + 10 + frameSize > headerSize then .ok t
            else
              let encoding := buffer.get? (pos + 10)
              let frameContent := jsSliceN buffer (pos + 11) (pos + 10 + frameSize)
              let content :=
                if encoding = some 0 then decodeLatin1 frameContent
                else if encoding = some 1 ∨ encoding = some 2 then decodeUtf16le frameContent
                else if encoding = some 3 then decodeUtf8 frameContent
                else []
              let content := jsTrim (stripFromNull content)
              manualLoop buffer headerSize fuel (pos + 10 + frameSize) (applyFrameV34 fid content t)
    else .ok t

/-- Model of `extractTagsManually` (lines 102-161). -/
def extractTagsManually (buffer : List Nat) (headerSize : Nat) : Except Unit ManualTags :=
  if headerSize ≤ 10 then .ok {}
  else manualLoop buffer headerSize headerSize 10 {}

/-- The raw IV value handed to `getIvBuffer`: in the pipeline always a JS
string; the `Buffer` branch of the source is kept for completeness. -/
inductive IvValue where
  | vstr (s : List Nat)
  | vbuf (b : List Nat)
deriving DecidableEq, Repr

/-- Model of `getIvBuffer` (lines 207-226):

```
if (!iv) throw new Error(IV is missing);
if (Buffer.isBuffer(iv)) return iv.length >= 16 ? iv.slice(0, 16)
                                : Buffer.concat([iv, Buffer.alloc(16 - iv.length)]);
const hexIv = iv.trim().replace(/[^0-9a-fA-F]/g, ...);
if (hexIv.length >= 32) return Buffer.from(hexIv.slice(0, 32), hex);
const buf = Buffer.alloc(16);
Buffer.from(iv, utf8).copy(buf);
return buf;
```
-/
def getIvBuffer : Option IvValue → Except XMError (List Nat)
  | none => .error .ivMissing
  | some (.vbuf b) =>
    .ok (if 16 ≤ b.length then b.take 16 else b ++ List.replicate (16 - b.length) 0)
  | some (.vstr s) =>
    let hexIv := (jsTrim s).filter isHexUnit
    if 32 ≤ hexIv.length then .ok (hexPairsToBytes (hexIv.take 32))
    else .ok ((utf8Encode s).take 16 ++ List.replicate (16 - (utf8Encode s).length) 0)

/-- The PKCS#7 check-and-strip performed by `decipher.final()` with
auto-padding enabled: the last byte `b` must satisfy `1 ≤ b ≤ 16` and the
last `b` bytes must all equal `b`; on success the padding is removed. -/
def stripPkcs7 (plain : List Nat) : Except XMError (List Nat) :=
  match plain.getLast? with
  | none => .error .cipherError
  | some b =>
    if 1 ≤ b ∧ b ≤ 16 ∧ b ≤ plain.length ∧ (plain.drop (plain.length - b)).all (fun x => x = b)
    then .ok (plain.take (plain.length - b))
    else .error .cipherError

/-- Model of `decryptAesSegment` (lines 163-205).  `aesDec iv data` is raw
AES-256-CBC block decryption of `data` under `XM_KEY` and `iv` (no padding
handling); `wasm` is `processWasmDecryption`.

Full-segment branch (`encryptedData.length === info.size`): attempt 1
decrypts with auto-padding (update + final, which demands a positive
block-aligned length and valid PKCS#7 padding) and runs the WASM stage;
on any error, attempt 2 re-decrypts the same bytes with auto-padding
disabled (final still demands a block-aligned length) and runs the WASM
stage again.

Chunk branch: auto-padding is disabled up front, the input is truncated to
a block boundary when unaligned, an empty truncation returns an empty
buffer, and `final()` cannot fail on the block-aligned input, so both the
try and its catch (update-only) hand the same decrypted bytes to the WASM
stage. -/
def decryptAesSegment (aesDec : List Nat → List Nat → List Nat)
    (wasm : List Nat → XMInfo → Except XMError (List Nat))
    (encryptedData : List Nat) (info : XMInfo) : Except XMError (List Nat) :=
  match getIvBuffer (info.iv.map IvValue.vstr) with
  | .error e => .error e
  | .ok ivBuffer =>
    if info.size = some (encryptedData.length : Int) then
      let attempt1 : Except XMError (List Nat) :=
        if encryptedData.length % 16 = 0 ∧ encryptedData.length ≠ 0 then
          match stripPkcs7 (aesDec ivBuffer encryptedData) with
          | .ok plain => wasm plain info
          | .error e => .error e
        else .error .cipherError
      match attempt1 with
      | .ok r => .ok r
      | .error _ =>
        if encryptedData.length % 16 = 0 then wasm (aesDec ivBuffer encryptedData) info
        else .error .cipherError
    else
      let dataToDecrypt :=
        if encryptedData.length % 16 ≠ 0 then
          encryptedData.take (encryptedData.length / 16 * 16)
        else encryptedData
      if dataToDecrypt.length = 0 then .ok []
      else
        match wasm (aesDec ivBuffer dataToDecrypt) info with
        | .ok r => .ok r
        | .error _ => wasm (aesDec ivBuffer dataToDecrypt) info

/-- The `xmInfo` built from the structured (`nodeID3`) path alone
(lines 35-49), before the manual fallback merge. -/
def structuredInfo (tags : Option Id3Tags) (headerSize : Nat) : XMInfo :=
  match tags with
  | none =>
    { tracknumber := 0, size := some 0, headerSize := headerSize, iv := none,
      encodingTechnology := [] }
  | some t =>
    { tracknumber :=
        match jsOr t.trackNumber t.TRCK with
        | none => 0  -- parseInt(undefined) is NaN, || 0
        | some s => jsParseIntOr0 s
      size :=
        match jsOr (jsOr (jsOr t.size t.TSIZ) (udtValue t.userDefinedText (strUnits "TSIZ")))
            (some (strUnits "0")) with
        | none => none
        | some s => jsParseInt s  -- no || 0 here: NaN propagates
      headerSize := headerSize
      iv := jsOr (jsOr (jsOr (jsOr t.isrc t.TSRC) t.encodedBy) t.TENC) t.ISRC
      encodingTechnology :=
        (jsOr (jsOr (jsOr t.encodingTechnology t.TSSE)
          (udtValue t.userDefinedText (strUnits "TSSE"))) (some [])).getD [] }

/-- Lines 25-61 of `decryptXM`: header sizing, structured extraction,
manual fallback merge, and the final size default.  The `Except` error is
the `RangeError` that can escape `extractTagsManually`. -/
def resolveXMInfo (tags : Option Id3Tags) (content : List Nat) : Except XMError XMInfo :=
  let headerSize := getID3Size content
  let base := structuredInfo tags headerSize
  match extractTagsManually content headerSize with
  | .error _ => .error .rangeError
  | .ok manual =>
    let iv := if jsStrTruthy base.iv then base.iv else manual.iv
    let size := if base.size = some 0 then some manual.size else base.size
    let tech := if base.encodingTechnology ≠ [] then base.encodingTechnology else manual.tsse
    let track := if base.tracknumber = 0 then manual.track else base.tracknumber
    let size := if size = some 0 then some ((content.length : Int) - (headerSize : Int)) else size
    .ok { tracknumber := track, size := size, headerSize := headerSize, iv := iv,
          encodingTechnology := tech }

/-- Model of `headerSize + size` with `NaN` propagation. -/
def addSize (headerSize : Nat) (size : Option Int) : Option Int :=
  size.map (fun z => (headerSize : Int) + z)

/-- Model of `decryptXM` (lines 18-93).  `tags` stands for the result of
`nodeID3.read(header)` (`none` when it returned `null` or threw); `aesDec`
and `wasm` are the cipher and WASM-stage parameters of
`decryptAesSegment`; `content` is `none` for a `null`/`undefined`
argument.

```
if (!content || content.length === 0) throw Error(Empty content ...);
const headerSize = getID3Size(content);
... build xmInfo (structured + manual + size default) ...
if (!xmInfo.iv) throw Error(No IV found in tags (TSRC, ISRC, TENC, or manual));
const encryptedData = content.slice(headerSize, headerSize + size);
if (encryptedData.length === 0) throw Error(Encrypted segment is empty ...);
const decodedData = await decryptAesSegment(encryptedData, xmInfo);
return Buffer.concat([decodedData, content.slice(headerSize + size)]);
```
-/
def decryptXM (tags : Option Id3Tags) (aesDec : List Nat → List Nat → List Nat)
    (wasm : List Nat → XMInfo → Except XMError (List Nat))
    (content : Option (List Nat)) : Except XMError (List Nat) :=
  match content with
  | none => .error .emptyContent
  | some c =>
    if c.length = 0 then .error .emptyContent
    else
      match resolveXMInfo tags c with
      | .error e => .error e
      | .ok info =>
        if ¬ jsStrTruthy info.iv then .error .noIV
        else
          let encryptedData := jsSlice c (some (info.headerSize : Int)) (addSize info.headerSize info.size)
          if encryptedData.length = 0 then .error .emptySegment
          else
            match decryptAesSegment aesDec wasm encryptedData info with
            | .error e => .error e
            | .ok dec => .ok (dec ++ jsSlice c (addSize info.headerSize info.size) (some (c.length : Int)))

/-! ### Concrete instantiations used by witnesses and counterexamples -/

/-- Identity in place of raw AES-CBC block decryption (a legitimate
instantiation of the cipher parameter: it is length preserving). -/
def aesId : List Nat → List Nat → List Nat := fun _ l => l

/-- A WASM stage that returns its input unchanged. -/
def wasmOk : List Nat → XMInfo → Except XMError (List Nat) := fun b _ => .ok b

/-- Cipher stage that maps every block to bytes 16 — its output carries
valid PKCS#7 padding for any 16-byte-aligned input. -/
def aesPad16 : List Nat → List Nat → List Nat := fun _ l => l.map (fun _ => 16)

/-- A truncated asset: `ID3`, version byte 3, flags 0, declared synchsafe
tag size 20 (so `headerSize = 30`), then the four frame-id bytes `TXXX`
and nothing else — 14 bytes in total.  The manual walk reaches
`buffer.readUInt32BE(14)` with only 14 bytes available and throws a
`RangeError`. -/
def crashAsset : List Nat := [73, 68, 51, 3, 0, 0, 0, 0, 0, 20, 84, 88, 88, 88]

/-- An asset whose only IV-bearing frame is too short: `ID3` v2.3 header
with declared tag size 16 (`headerSize = 26`), one `TSRC` frame of size 6
(latin1 encoding byte plus the 5 characters `ABCDE`). -/
def shortIvAsset : List Nat :=
  [73, 68, 51, 3, 0, 0, 0, 0, 0, 16] ++ strUnits "TSRC" ++ [0, 0, 0, 6, 0, 0] ++
    [0, 65, 66, 67, 68, 69]

/-- Like `shortIvAsset` but with a 16-character `TSRC` payload, which the
manual walk accepts as an IV. -/
def longIvAsset : List Nat :=
  [73, 68, 51, 3, 0, 0, 0, 0, 0, 27] ++ strUnits "TSRC" ++ [0, 0, 0, 17, 0, 0] ++
    [0] ++ strUnits "ABCDEFGHIJKLMNOP"

/-- The `ManualTags` record produced by the manual walk on `longIvAsset`. -/
def longIvManual : ManualTags :=
  { iv := some (strUnits "ABCDEFGHIJKLMNOP") }

/-- Structured tags declaring `size = 32` and a 16-character ISRC. -/
def tagsW : Id3Tags :=
  { size := some (strUnits "32"), isrc := some (strUnits "0123456789abcdef") }

/-- A 36-byte protected asset without a tag header: a 32-byte encrypted
window followed by 4 trailing bytes. -/
def contentW : List Nat := List.replicate 32 9 ++ [1, 2, 3, 4]

/-- The pipeline output for `contentW` under `aesPad16`/`wasmOk`:
16 decoded bytes then the verbatim trailing region. -/
def outW : List Nat := List.replicate 16 16 ++ [1, 2, 3, 4]

/-- The 16-byte IV buffer obtained from the string `0123456789abcdef`
(16 hex characters is fewer than 32, so the raw-text path applies and the
ASCII bytes are used as-is). -/
def ivW : List Nat := strUnits "0123456789abcdef"

/-- Descriptor declaring `size = 17` — equal to the length of a 17-byte
segment, which routes `decryptAesSegment` into the full-segment branch. -/
def info17C : XMInfo :=
  { tracknumber := 0, size := some 17, headerSize := 0, iv := some ivW,
    encodingTechnology := [] }

/-- Descriptor declaring `size = 100` — different from the length of a
20-byte segment, which routes `decryptAesSegment` into the chunk branch. -/
def info20C : XMInfo :=
  { tracknumber := 0, size := some 100, headerSize := 0, iv := some ivW,
    encodingTechnology := [] }

/-- An IV string that is not hexadecimal as a whole but contains 32
embedded hexadecimal characters. -/
def mixedIvStr : List Nat := strUnits "zz00112233445566778899aabbccddeeff"

/-- IV normalization as worded by the claim: if the value itself is a
hexadecimal string of at least 32 characters, the first 16 bytes decoded
from hex; otherwise the raw UTF-8 text right-padded with zero bytes to 16
bytes and truncated to 16 bytes if longer.  (Definition written from the
claim, for comparison against `getIvBuffer`.) -/
def ivNormClaimed (s : List Nat) : List Nat :=
  if s.all isHexUnit ∧ 32 ≤ s.length then hexPairsToBytes (s.take 32)
  else (utf8Encode s).take 16 ++ List.replicate (16 - (utf8Encode s).length) 0

/-- IV normalization as the code actually performs it: trim the value,
discard every non-hexadecimal character, and use the hex path when at
least 32 hex digits remain; otherwise pad/truncate the raw UTF-8 text of
the original value to 16 bytes. -/
def ivNormAmended (s : List Nat) : List Nat :=
  let hexIv := (jsTrim s).filter isHexUnit
  if 32 ≤ hexIv.length then hexPairsToBytes (hexIv.take 32)
  else (utf8Encode s).take 16 ++ List.replicate (16 - (utf8Encode s).length) 0

end XM

end TingReader

namespace TingReader.Cache

/-! ### Cache lemmas -/

theorem sizeTrim_suffix (l : List Cache.CacheFile) : sizeTrim l <:+ l := by
  induction l with
  | nil => simp [sizeTrim]
  | cons f rest ih =>
    simp only [sizeTrim]
    split
    · exact List.suffix_refl _
    · exact ih.trans (List.suffix_cons f rest)

theorem sizeTrim_total_le (l : List CacheFile) : totalSize (sizeTrim l) ≤ MAX_SIZE_BYTES := by
  induction l with
  | nil => simp [sizeTrim, totalSize, MAX_SIZE_BYTES]
  | cons f rest ih =>
    simp only [sizeTrim]
    split
    · assumption
    · exact ih

theorem clearOldCache_suffix_sorted (files : List CacheFile) :
    clearOldCache files <:+ sortByMtime files := by
  simp only [clearOldCache]
  split
  · exact (sizeTrim_suffix _).trans (List.drop_suffix _ _)
  · exact sizeTrim_suffix _

/-- Claim C1, counterexample: a cache holding a single file whose size
exceeds the 2 GiB cap.  The claim asserts such a file is retained (with
the size cap still violated); the sweep in fact deletes it, leaving an
empty cache. -/
theorem claim1_oversized_retention_cex :
    clearOldCache [⟨0, 2147483649⟩] = [] ∧
    MAX_SIZE_BYTES < totalSize [⟨0, 2147483649⟩] := by decide

/-- Claim C1 (amended): after a completed eviction sweep the cache holds
at most 50 files and at most 2 GiB in total, with no exception — a single
file exceeding the size cap on its own is deleted as well, not retained.
The sweep deletes oldest-modified-first (the survivors are a suffix of the
oldest-first ordering), trimming the count excess before the size
excess. -/
theorem claim1_eviction_bounds (files : List CacheFile) :
    (clearOldCache files).length ≤ MAX_FILES ∧
    totalSize (clearOldCache files) ≤ MAX_SIZE_BYTES ∧
    clearOldCache files <:+ sortByMtime files := by
  refine ⟨?_, ?_, clearOldCache_suffix_sorted files⟩
  · simp only [clearOldCache]
    have h := (sizeTrim_suffix
      (if (sortByMtime files).length > MAX_FILES then
        List.drop ((sortByMtime files).length - MAX_FILES) (sortByMtime files)
      else sortByMtime files)).length_le
    refine le_trans h ?_
    split
    · rw [List.length_drop]; omega
    · next hn => exact Nat.le_of_not_lt hn
  · simp only [clearOldCache]
    exact sizeTrim_total_le _

end TingReader.Cache

namespace TingReader.Backend

/-- Claim C5, counterexample: for a 100-byte resource and a Range start of
100, the response does have status 416 and `Content-Range: bytes */100`,
but its body is the fixed text `Requested range not satisfiable` rather
than no body. -/
theorem claim5_no_body_cex :
    (streamRangedResponse 100 100 none).status = 416 ∧
    (streamRangedResponse 100 100 none).contentRange = some "bytes */100" ∧
    (streamRangedResponse 100 100 none).body = .text "Requested range not satisfiable" ∧
    (streamRangedResponse 100 100 none).body ≠ .empty := by decide

/-- Claim C5 (amended): for every non-protected remote-streamed resource
of total size `T` and every ranged request whose parsed start is at least
`T`, the response has status 416, the header `Content-Range: bytes */T`,
no `Content-Length`, and a short fixed plain-text body (`Requested range
not satisfiable`) instead of an empty body. -/
theorem claim5_range_oob_amended (fileSize : Nat) (start : Int) (endOpt : Option Int)
    (h : (fileSize : Int) ≤ start) :
    streamRangedResponse fileSize start endOpt =
      { status := 416, contentRange := some ("bytes */" ++ toString fileSize),
        contentLength := none, body := .text "Requested range not satisfiable" } := by
  simp [streamRangedResponse, h]

/-- Witness for C5 at `T = 100`, start 150. -/
theorem claim5_range_oob_witness :
    streamRangedResponse 100 150 none =
      { status := 416, contentRange := some ("bytes */" ++ toString (100 : Nat)),
        contentLength := none, body := .text "Requested range not satisfiable" } :=
  claim5_range_oob_amended 100 150 none (by decide)

end TingReader.Backend

namespace TingReader.XM

/-- Claim C10: for a `null` input or a zero-length buffer, `decryptXM`
fails immediately with the distinct empty-content error — for every
possible behaviour of the tag reader, the cipher and the WASM stage, i.e.
before header parsing or key-material resolution could influence the
outcome — rather than returning an empty result. -/
theorem claim10_empty_input (tags : Option Id3Tags)
    (aesDec : List Nat → List Nat → List Nat)
    (wasm : List Nat → XMInfo → Except XMError (List Nat)) :
    decryptXM tags aesDec wasm none = .error .emptyContent ∧
    decryptXM tags aesDec wasm (some []) = .error .emptyContent :=
  ⟨rfl, rfl⟩

theorem hexPairsToBytes_length (l : List Nat) :
    (hexPairsToBytes l).length = l.length / 2 := by
  match l with
  | [] => simp [hexPairsToBytes]
  | [a] => simp [hexPairsToBytes]
  | a :: b :: rest =>
    simp only [hexPairsToBytes, List.length_cons, hexPairsToBytes_length rest]
    omega

/-- Claim C4, counterexample: the string
`zz00112233445566778899aabbccddeeff` is not a hexadecimal string (it
begins with `zz`), so under the claim its normalization should be its raw
UTF-8 text truncated to 16 bytes; the code instead strips the non-hex
characters, finds 32 hex digits, and decodes them as hex. -/
theorem claim4_hex_stripping_cex :
    getIvBuffer (some (.vstr mixedIvStr)) =
      .ok [0, 17, 34, 51, 68, 85, 102, 119, 136, 153, 170, 187, 204, 221, 238, 255] ∧
    ivNormClaimed mixedIvStr =
      [122, 122, 48, 48, 49, 49, 50, 50, 51, 51, 52, 52, 53, 53, 54, 54] ∧
    getIvBuffer (some (.vstr mixedIvStr)) ≠ .ok (ivNormClaimed mixedIvStr) := by decide

/-- Claim C4 (amended): for every resolved raw IV string, normalization
produces exactly 16 bytes; if, after trimming and removing every
non-hexadecimal character, at least 32 hex digits remain, the result is
the first 16 bytes decoded from those hex digits; otherwise the original
value is treated as raw text, right-padded with zero bytes to 16 bytes and
truncated to 16 bytes if longer. -/
theorem claim4_iv_normalization_amended (s : List Nat) :
    getIvBuffer (some (.vstr s)) = .ok (ivNormAmended s) ∧
    (ivNormAmended s).length = 16 := by
  constructor
  · by_cases h : 32 ≤ ((jsTrim s).filter isHexUnit).length
    · simp [getIvBuffer, ivNormAmended, h]
    · simp [getIvBuffer, ivNormAmended, h]
  · simp only [ivNormAmended]
    split
    · next h =>
      rw [hexPairsToBytes_length, List.length_take]
      omega
    · simp only [List.length_append, List.length_take, List.length_replicate]
      omega

/-- Claim C2, counterexample: a 17-byte segment (not a multiple of the
16-byte block size) whose length equals the declared size takes the
full-segment branch, where the retry neither truncates nor succeeds —
decryption fails outright with a cipher error, for any cipher and WASM
behaviour (here the identity instantiations). -/
theorem claim2_unaligned_full_segment_cex :
    (List.replicate 17 0).length % 16 ≠ 0 ∧
    decryptAesSegment aesId wasmOk (List.replicate 17 0) info17C = .error .cipherError := by
  decide

/-- Claim C2 (amended): for a segment whose length is not a block
multiple, behaviour depends on whether the length equals the declared
size.  If it does (full-segment branch), both decrypt attempts fail and
the stage raises a cipher error.  If it differs (chunk branch), padding
validation is disabled, the input is truncated down to the nearest
block-size multiple, and — provided at least one full block remains — the
non-empty decrypted blocks are handed to the transform stage, whose result
is returned. -/
theorem claim2_padding_fallback_amended
    (aesDec : List Nat → List Nat → List Nat)
    (wasm : List Nat → XMInfo → Except XMError (List Nat))
    (enc : List Nat) (info : XMInfo) (iv0 : List Nat)
    (hiv : getIvBuffer (info.iv.map IvValue.vstr) = .ok iv0)
    (hmod : enc.length % 16 ≠ 0) :
    (info.size = some (enc.length : Int) →
      decryptAesSegment aesDec wasm enc info = .error .cipherError) ∧
    (info.size ≠ some (enc.length : Int) → 16 ≤ enc.length →
      enc.take (enc.length / 16 * 16) ≠ [] ∧
      decryptAesSegment aesDec wasm enc info =
        wasm (aesDec iv0 (enc.take (enc.length / 16 * 16))) info) := by
  constructor
  · intro hs
    simp only [decryptAesSegment, hiv]
    rw [if_pos hs]
    simp [hmod]
  · intro hns h16
    have hql : 16 ≤ enc.length / 16 * 16 := by
      have h1 : 1 ≤ enc.length / 16 := (Nat.one_le_div_iff (by omega)).mpr h16
      omega
    have hlen : (enc.take (enc.length / 16 * 16)).length = enc.length / 16 * 16 := by
      rw [List.length_take]
      have := Nat.div_mul_le_self enc.length 16
      omega
    refine ⟨?_, ?_⟩
    · intro hnil
      rw [hnil] at hlen
      simp at hlen
      omega
    · simp only [decryptAesSegment, hiv]
      rw [if_neg hns]
      simp only [hmod, if_pos, if_true, ne_eq, not_false_eq_true, ite_true]
      rw [if_neg (by omega : ¬ (enc.take (enc.length / 16 * 16)).length = 0)]
      cases hw : wasm (aesDec iv0 (enc.take (enc.length / 16 * 16))) info with
      | ok r => simp [hw]
      | error e => simp [hw]

/-- Witness for C2: a 20-byte segment with declared size 100 (chunk
branch) is truncated to its first 16 bytes, which are decrypted and handed
to the transform stage. -/
theorem claim2_padding_fallback_witness :
    (List.replicate 20 7).take ((List.replicate 20 7).length / 16 * 16) ≠ [] ∧
    decryptAesSegment aesId wasmOk (List.replicate 20 7) info20C =
      wasmOk (aesId ivW ((List.replicate 20 7).take ((List.replicate 20 7).length / 16 * 16)))
        info20C :=
  (claim2_padding_fallback_amended aesId wasmOk (List.replicate 20 7) info20C ivW
    (by decide) (by decide)).2 (by decide) (by decide)

/-- Claim C3, counterexample: `crashAsset` is an asset from which neither
the structured path (`nodeID3.read` cannot extract an IV from the
truncated frame region) nor the manual byte-walk yields an IV candidate,
yet resolution fails with the generic out-of-range exception escaping
`buffer.readUInt32BE`, not with the distinct missing-key-material
error. -/
theorem claim3_generic_range_error_cex :
    decryptXM none aesId wasmOk (some crashAsset) = .error .rangeError ∧
    XMError.rangeError ≠ XMError.noIV := by decide

/-- Claim C3 (amended): for every non-empty asset on which the manual
byte-walk completes without an out-of-range read and yields no IV
candidate, and whose structured path also yields no IV candidate,
resolution fails terminally with the distinct missing-key-material error
(`No IV found in tags ...`) and never substitutes a default IV; assets
whose truncated version-3-style tag region makes the walk read a frame
size past the buffer end instead raise a generic range error (see the
counterexample). -/
theorem claim3_missing_iv_amended (tags : Option Id3Tags)
    (aesDec : List Nat → List Nat → List Nat)
    (wasm : List Nat → XMInfo → Except XMError (List Nat))
    (c : List Nat) (m : ManualTags)
    (hne : ¬ c.length = 0)
    (hm : extractTagsManually c (getID3Size c) = .ok m)
    (hmiv : jsStrTruthy m.iv = false)
    (hsiv : jsStrTruthy (structuredInfo tags (getID3Size c)).iv = false) :
    decryptXM tags aesDec wasm (some c) = .error .noIV := by
  simp only [decryptXM, resolveXMInfo, hm]
  rw [if_neg hne]
  simp [hsiv, hmiv]

/-- Witness for C3: the one-byte asset `[1]` has no tag header, both paths
yield no IV, and decryption fails with the missing-IV error. -/
theorem claim3_missing_iv_witness :
    decryptXM none aesId wasmOk (some [1]) = .error .noIV :=
  claim3_missing_iv_amended none aesId wasmOk [1] {} (by decide) (by decide) (by decide)
    (by decide)

/-- Claim C8: the resolver prefers structured-path values, fills gaps from
the manual path (a field counts as a gap when it is falsy, respectively
zero), and when both paths leave `segmentSize` at zero it substitutes the
remaining bytes after the header, `rawLength - headerSize`. -/
theorem claim8_merge_and_size_default (tags : Option Id3Tags) (c : List Nat) (m : ManualTags)
    (hm : extractTagsManually c (getID3Size c) = .ok m) :
    ∃ r, resolveXMInfo tags c = .ok r ∧
      r.headerSize = getID3Size c ∧
      r.iv = (if jsStrTruthy (structuredInfo tags (getID3Size c)).iv then
                (structuredInfo tags (getID3Size c)).iv
              else m.iv) ∧
      r.encodingTechnology =
        (if (structuredInfo tags (getID3Size c)).encodingTechnology ≠ [] then
          (structuredInfo tags (getID3Size c)).encodingTechnology
        else m.tsse) ∧
      r.tracknumber =
        (if (structuredInfo tags (getID3Size c)).tracknumber = 0 then m.track
        else (structuredInfo tags (getID3Size c)).tracknumber) ∧
      r.size =
        (if (structuredInfo tags (getID3Size c)).size = some 0 then
          (if m.size = 0 then some ((c.length : Int) - (getID3Size c : Int)) else some m.size)
        else (structuredInfo tags (getID3Size c)).size) := by
  simp only [resolveXMInfo, hm]
  refine ⟨_, rfl, rfl, rfl, rfl, rfl, ?_⟩
  by_cases h1 : (structuredInfo tags (getID3Size c)).size = some (0 : Int)
  · by_cases h2 : m.size = 0 <;> simp [h1, h2]
  · simp [h1]

/-- Witness for C8: a three-byte asset without a tag header and without
structured tags; both paths leave the size at zero and the resolver
substitutes `rawLength - headerSize = 3`. -/
theorem claim8_merge_and_size_default_witness :
    ∃ r, resolveXMInfo none [1, 2, 3] = .ok r ∧
      r.headerSize = getID3Size [1, 2, 3] ∧
      r.iv = (if jsStrTruthy (structuredInfo none (getID3Size [1, 2, 3])).iv then
                (structuredInfo none (getID3Size [1, 2, 3])).iv
              else ManualTags.iv {}) ∧
      r.encodingTechnology =
        (if (structuredInfo none (getID3Size [1, 2, 3])).encodingTechnology ≠ [] then
          (structuredInfo none (getID3Size [1, 2, 3])).encodingTechnology
        else ManualTags.tsse {}) ∧
      r.tracknumber =
        (if (structuredInfo none (getID3Size [1, 2, 3])).tracknumber = 0 then ManualTags.track {}
        else (structuredInfo none (getID3Size [1, 2, 3])).tracknumber) ∧
      r.size =
        (if (structuredInfo none (getID3Size [1, 2, 3])).size = some 0 then
          (if ManualTags.size {} = 0 then
            some (([1, 2, 3].length : Int) - (getID3Size [1, 2, 3] : Int))
          else some (ManualTags.size {}))
        else (structuredInfo none (getID3Size [1, 2, 3])).size) :=
  claim8_merge_and_size_default none [1, 2, 3] {} (by decide)

theorem jsSlice_nonneg_drop (l : List Nat) (z : Int) (hz : 0 ≤ z) :
    jsSlice l (some z) (some (l.length : Int)) = l.drop z.toNat := by
  simp only [jsSlice, jsIndex]
  rw [if_neg (by omega : ¬ z < 0), if_neg (by omega : ¬ (l.length : Int) < 0)]
  rw [Int.toNat_natCast, min_self, List.take_length]
  by_cases hzl : z.toNat ≤ l.length
  · rw [min_eq_left hzl]
  · rw [min_eq_right (le_of_not_le hzl)]
    rw [List.drop_length, List.drop_eq_nil_of_le (le_of_not_le hzl)]

/-- Claim C6: whenever the pipeline succeeds, its output is the
transform-decoded segment concatenated with
`raw.slice(headerSize + segmentSize)`, and (for a non-negative window end)
that trailing region is exactly `raw.drop (headerSize + segmentSize)` —
every byte outside the encrypted window appears in the output
verbatim. -/
theorem claim6_trailing_verbatim (tags : Option Id3Tags)
    (aesDec : List Nat → List Nat → List Nat)
    (wasm : List Nat → XMInfo → Except XMError (List Nat))
    (c out : List Nat)
    (h : decryptXM tags aesDec wasm (some c) = .ok out) :
    ∃ info dec, resolveXMInfo tags c = .ok info ∧
      out = dec ++ jsSlice c (addSize info.headerSize info.size) (some (c.length : Int)) ∧
      (∀ z : Int, info.size = some z → 0 ≤ (info.headerSize : Int) + z →
        jsSlice c (addSize info.headerSize info.size) (some (c.length : Int)) =
          c.drop ((info.headerSize : Int) + z).toNat) := by
  simp only [decryptXM] at h
  split at h
  · exact absurd h (by simp)
  · split at h
    · exact absurd h (by simp)
    · next info hr =>
      split at h
      · exact absurd h (by simp)
      · split at h
        · exact absurd h (by simp)
        · split at h
          · exact absurd h (by simp)
          · next dec hd =>
            refine ⟨info, dec, hr, ?_, ?_⟩
            · rcases h with ⟨rfl⟩
              rfl
            · intro z hz hnn
              rw [hz]
              simp only [addSize, Option.map_some]
              exact jsSlice_nonneg_drop c ((info.headerSize : Int) + z) hnn

/-- Witness for C6: a 36-byte asset whose 32-byte encrypted window decodes
to 16 bytes; the 4 trailing bytes pass through verbatim. -/
theorem claim6_trailing_verbatim_witness :
    ∃ info dec, resolveXMInfo (some tagsW) contentW = .ok info ∧
      outW = dec ++ jsSlice contentW (addSize info.headerSize info.size) (some (contentW.length : Int)) ∧
      (∀ z : Int, info.size = some z → 0 ≤ (info.headerSize : Int) + z →
        jsSlice contentW (addSize info.headerSize info.size) (some (contentW.length : Int)) =
          contentW.drop ((info.headerSize : Int) + z).toNat) := by
  have h : decryptXM (some tagsW) aesPad16 wasmOk (some contentW) = Except.ok outW := by decide
  exact claim6_trailing_verbatim (some tagsW) aesPad16 wasmOk contentW outW h

/-! ### Bitwise helpers for the synchsafe size formula -/

theorem lor_eq_add_of_dvd_of_lt (k a b : Nat) (ha : 2 ^ k ∣ a) (hb : b < 2 ^ k) :
    a ||| b = a + b := by
  obtain ⟨q, rfl⟩ := ha
  apply Nat.eq_of_testBit_eq
  intro i
  rw [Nat.testBit_lor, Nat.testBit_mul_pow_two_add q hb i]
  by_cases h : i < k
  · simp [Nat.testBit_mul_pow_two, Nat.not_le_of_lt h, h]
  · have hbf : b.testBit i = false :=
      Nat.testBit_lt_two_pow (lt_of_lt_of_le hb (Nat.pow_le_pow_right (by omega) (by omega)))
    simp [Nat.testBit_mul_pow_two, h, Nat.le_of_not_lt h, hbf]

theorem synchsafe_lor_eq (x y z w : Nat) (_hx : x < 128) (hy : y < 128) (hz : z < 128)
    (hw : w < 128) :
    (((x <<< 21) ||| (y <<< 14)) ||| (z <<< 7)) ||| w =
      x * 2 ^ 21 + y * 2 ^ 14 + z * 2 ^ 7 + w := by
  have p21 : (2 : Nat) ^ 21 = 2097152 := by norm_num
  have p14 : (2 : Nat) ^ 14 = 16384 := by norm_num
  have p7 : (2 : Nat) ^ 7 = 128 := by norm_num
  rw [Nat.shiftLeft_eq, Nat.shiftLeft_eq, Nat.shiftLeft_eq]
  rw [lor_eq_add_of_dvd_of_lt 21 (x * 2 ^ 21) (y * 2 ^ 14) (dvd_mul_left _ _)
    (by rw [p14, p21]; omega)]
  rw [lor_eq_add_of_dvd_of_lt 14 (x * 2 ^ 21 + y * 2 ^ 14) (z * 2 ^ 7)
    (dvd_add ⟨x * 2 ^ 7, by ring⟩ (dvd_mul_left _ _)) (by rw [p7, p14]; omega)]
  rw [lor_eq_add_of_dvd_of_lt 7 (x * 2 ^ 21 + y * 2 ^ 14 + z * 2 ^ 7) w
    (dvd_add (dvd_add ⟨x * 2 ^ 14, by ring⟩ ⟨y * 2 ^ 7, by ring⟩) (dvd_mul_left _ _))
    (by rw [p7]; omega)]

/-! ### UTF-8 decoding helpers: only the exact magic bytes decode to the
all-ASCII string `ID3` -/

theorem utf8Step_low (b : Nat) (rest : List Nat) (h : b < 128) :
    utf8Step (b :: rest) = ([b], rest) := by
  simp [utf8Step, h]

theorem utf8Step_high (b : Nat) (rest : List Nat) (h : 128 ≤ b) :
    ∃ u t r, utf8Step (b :: rest) = (u :: t, r) ∧ 128 ≤ u ∧ r.length ≤ rest.length := by
  simp only [utf8Step]
  rw [if_neg (by omega)]
  by_cases h1 : b < 194
  · rw [if_pos h1]
    exact ⟨65533, [], rest, rfl, by omega, le_refl _⟩
  rw [if_neg h1]
  by_cases h2 : b < 224
  · rw [if_pos h2]
    cases rest with
    | nil => exact ⟨65533, [], [], rfl, by omega, by simp⟩
    | cons c r2 =>
      dsimp only
      by_cases hc : 128 ≤ c ∧ c ≤ 191
      · rw [if_pos hc]
        exact ⟨_, [], r2, rfl, by omega, by simp⟩
      · rw [if_neg hc]
        exact ⟨65533, [], c :: r2, rfl, by omega, le_refl _⟩
  rw [if_neg h2]
  by_cases h3 : b < 240
  · rw [if_pos h3]
    cases rest with
    | nil => exact ⟨65533, [], [], rfl, by omega, by simp⟩
    | cons c1 r2 =>
      dsimp only
      by_cases hc1 : (if b = 224 then 160 ≤ c1 else 128 ≤ c1) ∧
          (if b = 237 then c1 ≤ 159 else c1 ≤ 191)
      · rw [if_pos hc1]
        cases r2 with
        | nil => exact ⟨65533, [], [], rfl, by omega, by simp⟩
        | cons c2 r3 =>
          dsimp only
          by_cases hc2 : 128 ≤ c2 ∧ c2 ≤ 191
          · rw [if_pos hc2]
            refine ⟨_, [], r3, rfl, ?_, by simp only [List.length_cons]; omega⟩
            rcases hc1 with ⟨hA, hB⟩
            by_cases hb224 : b = 224
            · rw [if_pos hb224] at hA
              omega
            · rw [if_neg hb224] at hA
              omega
          · rw [if_neg hc2]
            refine ⟨65533, [], c2 :: r3, rfl, by omega, ?_⟩
            simp only [List.length_cons]
            omega
      · rw [if_neg hc1]
        exact ⟨65533, [], c1 :: r2, rfl, by omega, le_refl _⟩
  rw [if_neg h3]
  by_cases h4 : b < 245
  · rw [if_pos h4]
    cases rest with
    | nil => exact ⟨65533, [], [], rfl, by omega, by simp⟩
    | cons c1 r2 =>
      dsimp only
      by_cases hc1 : (if b = 240 then 144 ≤ c1 else 128 ≤ c1) ∧
          (if b = 244 then c1 ≤ 143 else c1 ≤ 191)
      · rw [if_pos hc1]
        cases r2 with
        | nil => exact ⟨65533, [], [], rfl, by omega, by simp⟩
        | cons c2 r3 =>
          dsimp only
          by_cases hc2 : 128 ≤ c2 ∧ c2 ≤ 191
          · rw [if_pos hc2]
            cases r3 with
            | nil =>
              refine ⟨65533, [], [], rfl, by omega, ?_⟩
              simp
            | cons c3 r4 =>
              dsimp only
              by_cases hc3 : 128 ≤ c3 ∧ c3 ≤ 191
              · rw [if_pos hc3]
                refine ⟨_, [_], r4, rfl, by omega, ?_⟩
                simp only [List.length_cons]
                omega
              · rw [if_neg hc3]
                refine ⟨65533, [], c3 :: r4, rfl, by omega, ?_⟩
                simp only [List.length_cons]
                omega
          · rw [if_neg hc2]
            refine ⟨65533, [], c2 :: r3, rfl, by omega, ?_⟩
            simp only [List.length_cons]
            omega
      · rw [if_neg hc1]
        exact ⟨65533, [], c1 :: r2, rfl, by omega, le_refl _⟩
  rw [if_neg h4]
  exact ⟨65533, [], rest, rfl, by omega, le_refl _⟩


theorem decodeUtf8Go_ascii (fuel : Nat) :
    ∀ l us, l.length ≤ fuel → decodeUtf8Go fuel l = us → (∀ u ∈ us, u < 128) → l = us := by
  induction fuel with
  | zero =>
    intro l us hl h _
    cases l with
    | nil => simpa [decodeUtf8Go] using h
    | cons b rest => simp at hl
  | succ n ih =>
    intro l us hl h hus
    cases l with
    | nil => simpa [decodeUtf8Go] using h
    | cons b rest =>
      by_cases hb : b < 128
      · rw [decodeUtf8Go, utf8Step_low b rest hb] at h
        simp only [List.cons_append, List.nil_append] at h
        subst h
        have htail : rest = decodeUtf8Go n rest :=
          ih rest (decodeUtf8Go n rest) (by simp at hl; omega) rfl
            (fun u hu => hus u (by simp [hu]))
        rw [← htail]
      · obtain ⟨u, t, r, hstep, hu, hr⟩ := utf8Step_high b rest (by omega)
        rw [decodeUtf8Go, hstep] at h
        simp only [List.cons_append] at h
        have : u ∈ us := by rw [← h]; simp
        exact absurd (hus u this) (by omega)

theorem decodeUtf8_magic_inj (l : List Nat) (h : decodeUtf8 l = strUnits "ID3") :
    l = [73, 68, 51] := by
  have hascii : ∀ u ∈ strUnits "ID3", u < 128 := by decide
  have := decodeUtf8Go_ascii l.length l (strUnits "ID3") (le_refl _) h hascii
  simpa [strUnits] using this

/-- Claim C7: the header parser returns 0 when the asset does not begin
with the three magic bytes `ID3`; otherwise it returns the 28-bit
big-endian integer formed from the low 7 bits of the bytes at offsets 6-9
plus the fixed 10-byte header-prefix length. -/
theorem claim7_header_size (c : List Nat) :
    (c.take 3 ≠ [73, 68, 51] → getID3Size c = 0) ∧
    (c.take 3 = [73, 68, 51] →
      getID3Size c =
        (byteAt c 6 &&& 127) * 2 ^ 21 + (byteAt c 7 &&& 127) * 2 ^ 14 +
          (byteAt c 8 &&& 127) * 2 ^ 7 + (byteAt c 9 &&& 127) + 10) := by
  have hsl : jsSliceN c 0 3 = c.take 3 := by simp [jsSliceN]
  constructor
  · intro hne
    rw [getID3Size, hsl, if_neg]
    intro hdec
    exact hne (decodeUtf8_magic_inj (c.take 3) hdec)
  · intro heq
    rw [getID3Size, hsl, heq, if_pos (by decide)]
    rw [synchsafe_lor_eq _ _ _ _
      (by have := @Nat.and_le_right (byteAt c 6) 127; omega)
      (by have := @Nat.and_le_right (byteAt c 7) 127; omega)
      (by have := @Nat.and_le_right (byteAt c 8) 127; omega)
      (by have := @Nat.and_le_right (byteAt c 9) 127; omega)]

/-- Witness for C7: an asset without the magic parses to 0; the asset
`ID3`, version 4, flags 0, synchsafe size bytes 0 0 1 3 parses to
`(1 * 128 + 3) + 10 = 141`. -/
theorem claim7_header_size_witness :
    getID3Size [1, 2, 3] = 0 ∧ getID3Size [73, 68, 51, 4, 0, 0, 0, 0, 1, 3] = 141 :=
  ⟨(claim7_header_size [1, 2, 3]).1 (by decide),
    ((claim7_header_size [73, 68, 51, 4, 0, 0, 0, 0, 1, 3]).2 (by decide)).trans (by decide)⟩

/-! ### The manual-walk IV length invariant (claim C9) -/

theorem applyFrameV34_iv (fid content : List Nat) (t : ManualTags)
    (ht : ∀ v, t.iv = some v → 16 ≤ v.length) :
    ∀ v, (applyFrameV34 fid content t).iv = some v → 16 ≤ v.length := by
  intro v hv
  unfold applyFrameV34 at hv
  split at hv
  · exact ht v hv
  · split at hv
    · exact ht v hv
    · split at hv
      · exact ht v hv
      · split at hv
        · split at hv
          · next hg =>
            have hcv : content = v := by simpa using hv
            subst hcv
            exact hg.2
          · exact ht v hv
        · split at hv
          · exact ht v hv
          · exact ht v hv

theorem manualLoop_iv (buffer : List Nat) (headerSize : Nat)
    (hver : ¬ buffer.get? 3 = some 2) :
    ∀ fuel pos t, (∀ v, t.iv = some v → 16 ≤ v.length) →
      ∀ t2, manualLoop buffer headerSize fuel pos t = .ok t2 →
        ∀ v, t2.iv = some v → 16 ≤ v.length := by
  intro fuel
  induction fuel with
  | zero =>
    intro pos t ht t2 h
    simp only [manualLoop] at h
    injection h with h2
    subst h2
    exact ht
  | succ n ih =>
    intro pos t ht t2 h
    simp only [manualLoop] at h
    by_cases hpos : pos < headerSize - 10
    · rw [if_pos hpos, if_neg hver] at h
      split at h
      · injection h with h2
        subst h2
        exact ht
      · split at h
        · exact absurd h (by simp)
        · split at h
          · injection h with h2
            subst h2
            exact ht
          · exact ih _ _ (applyFrameV34_iv _ _ _ ht) _ h
    · rw [if_neg hpos] at h
      injection h with h2
      subst h2
      exact ht

/-- Claim C9: in the manual extraction path for non-version-2 tag headers
(the branch handling version-3/version-4 frames), any IV candidate the
walk accepts is its decoded, null-stripped, trimmed frame text and has at
least 16 code units; an asset whose only IV-bearing frame holds a shorter
value (here a 5-character `TSRC`) yields no IV from the walk, so the
pipeline fails with the missing-IV error even though an IV-bearing frame
is present. -/
theorem claim9_manual_iv_min_length :
    (∀ (buffer : List Nat) (headerSize : Nat) (t : ManualTags) (v : List Nat),
      ¬ buffer.get? 3 = some 2 →
      extractTagsManually buffer headerSize = .ok t →
      t.iv = some v → 16 ≤ v.length) ∧
    decryptXM none aesId wasmOk (some shortIvAsset) = .error .noIV := by
  constructor
  · intro buffer headerSize t v hver hok hiv
    unfold extractTagsManually at hok
    split at hok
    · injection hok with h2
      subst h2
      exact Option.noConfusion hiv
    · exact manualLoop_iv buffer headerSize hver headerSize 10 {}
        (fun v hv => Option.noConfusion hv) t hok v hiv
  · decide

/-- Witness for C9: an asset with a 16-character `TSRC` frame, whose
manual walk accepts the IV; the accepted value has at least 16 code
units. -/
theorem claim9_manual_iv_min_length_witness :
    16 ≤ (strUnits "ABCDEFGHIJKLMNOP").length :=
  claim9_manual_iv_min_length.1 longIvAsset 37 longIvManual (strUnits "ABCDEFGHIJKLMNOP")
    (by decide) (by decide) (by decide)

end TingReader.XM
